import Mathlib

/-!
# Verification of the lossless-cut smart-cut core

Shallow embedding of `src/renderer/src/smartcut.ts` (lossless-cut).
JavaScript numbers are modelled as exact rationals (`ℚ`) and integers (`ℤ`,
`ℕ`); all concrete values appearing in the verified properties are exactly
representable in IEEE double precision, and every arithmetic step involved
(integer products, the division `12500000*8/100`, the 1.2 multiplier at these
magnitudes) rounds to the same value in double precision as in exact rational
arithmetic.

External collaborators that live outside the excerpted source
(`findKeyframeAtExactTime`, `findNextKeyframe` from `ffmpeg.ts`,
`getRealVideoStreams`, `getVideoTimebase` from `util/streams.ts`, `stat`,
JavaScript `parseInt`) are either taken as parameters with explicit
behavioural hypotheses, or modelled from the specification; each such
definition says so in its doc comment.
-/

/-- JavaScript `s.includes(pat)`: `pat` occurs as a contiguous substring
of `s`. -/
def jsIncludes (s pat : String) : Bool := decide (pat.data <:+: s.data)

/-- The value of the JavaScript expression
`({ av1: 'libsvtav1' })[codec] ?? codec` (smartcut.ts line 12): either a
string — the own property value for "av1", or the codec identifier restored
by `??` when the lookup read `undefined` — or a member inherited from
`Object.prototype` (a function, or for `__proto__` the prototype object
itself) when `codec` names one: the lookup is then not nullish, so the `??`
fallback does not fire. -/
inductive VideoCodecValue where
  | str (s : String)
  | protoMember (name : String)
deriving DecidableEq, Repr

/-- The property names an object-literal read finds on `Object.prototype`
through the prototype chain in the V8 environment the Electron renderer
runs in: the standard members plus the `__proto__` accessor and the four
Annex B `__defineGetter__`-style members. -/
def objectPrototypeKeys : List String :=
  ["constructor", "hasOwnProperty", "isPrototypeOf", "propertyIsEnumerable",
   "toLocaleString", "toString", "valueOf", "__proto__", "__defineGetter__",
   "__defineSetter__", "__lookupGetter__", "__lookupSetter__"]

/-- `mapVideoCodec` (smartcut.ts line 12): the object-literal lookup
`({ av1: 'libsvtav1' })[codec] ?? codec`. The own property "av1" yields
"libsvtav1"; a key naming an `Object.prototype` member yields that
inherited member; any other key reads `undefined` and `??` restores the
identifier itself. -/
def mapVideoCodec (codec : String) : VideoCodecValue :=
  if codec == "av1" then .str "libsvtav1"
  else if objectPrototypeKeys.contains codec then .protoMember codec
  else .str codec

/-- `getOptimalCRF` (smartcut.ts lines 19-48): default CRF/CQ value per
encoder, `undefined` modelled as `none`. The chain of early returns is
embedded as nested conditionals in source order. -/
def getOptimalCRF (encoder : String) : Option ℤ :=
  if encoder == "libx264" then some 23
  else if encoder == "libx265" then some 28
  else if encoder == "libsvtav1" then some 35
  else if encoder == "h264_nvenc" then some 23
  else if encoder == "hevc_nvenc" then some 28
  else if encoder == "av1_nvenc" then some 30
  else if encoder == "h264_videotoolbox" then none
  else if encoder == "hevc_videotoolbox" then none
  else if encoder == "h264_qsv" then some 23
  else if encoder == "hevc_qsv" then some 28
  else if encoder == "av1_qsv" then some 30
  else if jsIncludes encoder "vaapi" then none
  else if encoder == "h264_amf" then some 23
  else if encoder == "hevc_amf" then some 28
  else if encoder == "av1_amf" then some 30
  else none

/-- `getOptimalPreset` (smartcut.ts lines 54-76): default preset token per
encoder family, `undefined` modelled as `none`. Note the source order: the
`nvenc` substring test precedes the `videotoolbox` one. -/
def getOptimalPreset (encoder : String) : Option String :=
  if encoder == "libx264" then some "medium"
  else if encoder == "libx265" then some "medium"
  else if encoder == "libsvtav1" then some "6"
  else if jsIncludes encoder "nvenc" then some "p4"
  else if jsIncludes encoder "videotoolbox" then none
  else if jsIncludes encoder "qsv" then some "medium"
  else if jsIncludes encoder "vaapi" then none
  else if jsIncludes encoder "amf" then some "balanced"
  else none

/-- `supportsCRF` (smartcut.ts lines 81-83). -/
def supportsCRF (encoder : String) : Bool :=
  (getOptimalCRF encoder).isSome

/-- `getEncoderQualityArgs` (smartcut.ts lines 88-119). The mutable `args`
array is embedded as the concatenation of the three blocks pushed in source
order: quality pair (dialect chosen by substring tests), preset pair,
VideoToolbox fixed `-q` pair. `String(crf)` on the integral quality values
is `toString` on `ℤ`. -/
def getEncoderQualityArgs (encoder : String) (outputIndex : ℕ)
    (customCRF : Option ℤ) (customPreset : Option String) : List String :=
  let crf := match customCRF with
    | some c => some c
    | none => getOptimalCRF encoder
  let preset := match customPreset with
    | some p => some p
    | none => getOptimalPreset encoder
  let crfArgs : List String :=
    match crf with
    | none => []
    | some c =>
      if jsIncludes encoder "nvenc" then
        ["-cq:" ++ toString outputIndex, toString c]
      else if jsIncludes encoder "qsv" then
        ["-global_quality:" ++ toString outputIndex, toString c]
      else if jsIncludes encoder "amf" then
        ["-qp_i:" ++ toString outputIndex, toString c,
         "-qp_p:" ++ toString outputIndex, toString c]
      else ["-crf:" ++ toString outputIndex, toString c]
  let presetArgs : List String :=
    match preset with
    | none => []
    | some p => ["-preset:" ++ toString outputIndex, p]
  let vtArgs : List String :=
    if jsIncludes encoder "videotoolbox" then
      ["-q:" ++ toString outputIndex, "65"]
    else []
  crfArgs ++ presetArgs ++ vtArgs

/-- A keyframe as delivered by the external keyframe source: a timestamp in
seconds. -/
structure Keyframe where
  time : ℚ
deriving DecidableEq, Repr

/-- The result record of `needsSmartCut` (smartcut.ts lines 134-137 and
151-154). -/
structure CutDecision where
  losslessCutFrom : ℚ
  segmentNeedsSmartCut : Bool
deriving DecidableEq, Repr

/-- The two error kinds of the module: `UserFacingError` (errors.ts) versus a
plain `Error`. -/
inductive SmartCutError where
  | userFacing (msg : String)
  | internal (msg : String)
deriving DecidableEq, Repr

/-- Modelled from the spec: `findKeyframeAtExactTime` (ffmpeg.ts, not under
src/). Per spec section 4.1 step 2, it returns a keyframe whose time matches
`desiredCutFrom` exactly, with no additional tolerance. -/
def findKeyframeAtExactTime (keyframes : List Keyframe) (time : ℚ) :
    Option Keyframe :=
  keyframes.find? (fun kf => kf.time == time)

/-- Modelled from the spec: `findNextKeyframe` (ffmpeg.ts, not under src/).
Per spec section 4.1 step 3, it finds the earliest keyframe with time ≥ the
desired time within the queried window (the source list is ascending by
time, so the first match is the earliest). -/
def findNextKeyframe (keyframes : List Keyframe) (time : ℚ) :
    Option Keyframe :=
  keyframes.find? (fun kf => decide (time ≤ kf.time))

/-- `needsSmartCut` (smartcut.ts lines 121-155), parametric in the two
keyframe helpers from ffmpeg.ts and in the keyframe source. `readKeyframes`
stands for the closure `window => readKeyframesAroundTime({filePath,
streamIndex, aroundTime: desiredCutFrom, window})`: the path, stream index
and centre time are fixed for the whole call, only the window varies. The
`throw new UserFacingError(...)` becomes `Except.error (.userFacing ...)`. -/
def needsSmartCut
    (fkat fnk : List Keyframe → ℚ → Option Keyframe)
    (readKeyframes : ℕ → List Keyframe) (desiredCutFrom : ℚ) :
    Except SmartCutError CutDecision :=
  let keyframes := readKeyframes 10
  match fkat keyframes desiredCutFrom with
  | some keyframeAtExactTime =>
    Except.ok { losslessCutFrom := keyframeAtExactTime.time,
                segmentNeedsSmartCut := false }
  | none =>
    let nextKeyframe := fnk keyframes desiredCutFrom
    let nextKeyframe := match nextKeyframe with
      | none => fnk (readKeyframes 60) desiredCutFrom
      | some kf => some kf
    match nextKeyframe with
    | none => Except.error (.userFacing
        "Cannot find any keyframe after the desired start cut point")
    | some nextKeyframe =>
      Except.ok { losslessCutFrom := nextKeyframe.time,
                  segmentNeedsSmartCut := true }

/-- The sequence of windows with which `needsSmartCut` queries the keyframe
source, following the identical control flow: the first query always uses
window 10 (line 128), and the only further query is the single retry with
window 60 (line 144), taken exactly when neither an exact keyframe nor a
next keyframe was found in the first result. -/
def needsSmartCutWindows
    (fkat fnk : List Keyframe → ℚ → Option Keyframe)
    (readKeyframes : ℕ → List Keyframe) (desiredCutFrom : ℚ) : List ℕ :=
  let keyframes := readKeyframes 10
  match fkat keyframes desiredCutFrom with
  | some _ => [10]
  | none =>
    match fnk keyframes desiredCutFrom with
    | some _ => [10]
    | none => [10, 60]

/-- Numeric value of the longest digit prefix of a character list; `none`
when it does not start with a digit (JavaScript `parseInt` yields `NaN`
then). -/
def digitsPrefixValue (cs : List Char) : Option ℕ :=
  let ds := cs.takeWhile Char.isDigit
  if ds.isEmpty then none
  else some (ds.foldl (fun acc c => acc * 10 + (c.toNat - 48)) 0)

/-- JavaScript `parseInt(s, 10)` on a possibly-absent string: skip leading
whitespace, read an optional sign and then leading decimal digits; `NaN`
(modelled `none`) if no digits follow. `parseInt(undefined, 10)` is `NaN`.
Precision loss of doubles above 2^53 is not modelled; no verified property
evaluates `parseInt` near that range. -/
def parseIntJS : Option String → Option ℤ
  | none => none
  | some s =>
    let cs := s.data.dropWhile Char.isWhitespace
    match cs with
    | '-' :: rest => (digitsPrefixValue rest).map (fun n => -(n : ℤ))
    | '+' :: rest => (digitsPrefixValue rest).map (fun n => (n : ℤ))
    | _ => (digitsPrefixValue cs).map (fun n => (n : ℤ))

/-- The disposition flags of a probed stream, reduced to the one flag the
stream classifier consults. -/
structure Disposition where
  attached_pic : Bool
deriving DecidableEq, Repr

/-- The fields of an ffprobe stream record that smartcut.ts reads
(`Pick<FFprobeStream, 'time_base' | 'codec_type' | 'disposition' | 'index'
| 'bit_rate' | 'codec_name'>`). Optional string fields model absent
(undefined) probe data as `none`. -/
structure FFprobeStream where
  index : ℕ
  codec_type : String
  disposition : Disposition
  bit_rate : Option String
  codec_name : Option String
  time_base : Option String
deriving DecidableEq, Repr

/-- Modelled from the spec: `getRealVideoStreams` (util/streams.ts, not
under src/). Per spec sections 4.2 step 1 and 6, it keeps the video-typed
streams that are not cover-art/thumbnail (attached picture) streams. -/
def getRealVideoStreams (streams : List FFprobeStream) : List FFprobeStream :=
  streams.filter (fun s => s.codec_type == "video" && !s.disposition.attached_pic)

/-- Modelled from the spec: `getVideoTimebase` (util/streams.ts, not under
src/). Per spec sections 4.2 step 5 and 6, it parses the stream's time-base
fraction "numerator/denominator"; unparseable input yields an absent
timebase. -/
def getVideoTimebase (videoStream : FFprobeStream) : Option (ℤ × ℤ) :=
  match videoStream.time_base with
  | none => none
  | some tb =>
    match tb.splitOn "/" with
    | [a, b] =>
      match parseIntJS (some a), parseIntJS (some b) with
      | some num, some den => some (num, den)
      | _, _ => none
    | _ => none

/-- The record returned by `getCodecParams` (smartcut.ts lines 196-201). -/
structure CodecParams where
  videoStream : FFprobeStream
  videoCodec : VideoCodecValue
  videoBitrate : ℤ
  videoTimebase : Option (ℤ × ℤ)
deriving DecidableEq, Repr

/-- `getCodecParams` (smartcut.ts lines 158-202). The `stat` collaborator is
embedded by passing the byte size it reports (`statSize`); `fileDuration` is
in seconds. Each `throw new Error(...)` becomes `Except.error (.internal
...)`. `parseInt(videoStream.bit_rate!, 10)` is `parseIntJS` on the optional
string (the non-null assertion changes nothing: `parseInt(undefined)` is
`NaN`). The JavaScript `Math.floor` of `videoBitrate * 1.2` on line 181 and
the second `Math.floor` on line 199 both appear, as `Rat.floor`. -/
def getCodecParams (statSize : ℕ) (fileDuration : Option ℚ)
    (streams : List FFprobeStream) : Except SmartCutError CodecParams :=
  let videoStreams := getRealVideoStreams streams
  if videoStreams.length > 1 then
    Except.error (.internal "Can only smart cut video with exactly one video stream")
  else
    match videoStreams.head? with
    | none => Except.error (.internal "Smart cut only works on videos")
    | some videoStream =>
      let bitrateResult : Except SmartCutError ℚ :=
        match parseIntJS videoStream.bit_rate with
        | some n => Except.ok (n : ℚ)
        | none =>
          match fileDuration with
          | none => Except.error (.internal
              "Video duration is unknown, cannot estimate bitrate")
          | some d => Except.ok ((statSize : ℚ) * 8 / d)
      match bitrateResult with
      | Except.error e => Except.error e
      | Except.ok rawBitrate =>
        let videoBitrate : ℚ := (Rat.floor (rawBitrate * (12 / 10)) : ℤ)
        match videoStream.codec_name with
        | none => Except.error (.internal "Unable to determine codec for smart cut")
        | some detectedVideoCodec =>
          Except.ok { videoStream := videoStream,
                      videoCodec := mapVideoCodec detectedVideoCodec,
                      videoBitrate := Rat.floor videoBitrate,
                      videoTimebase := getVideoTimebase videoStream }


/-! ## Helper lemmas about the encoder family tables -/

/-- If `e` contains `pat` as a substring but the name `c` does not, then `e`
is not `c`. -/
theorem beq_name_false (e c pat : String) (h : jsIncludes e pat = true)
    (hc : jsIncludes c pat = false) : (e == c) = false := by
  rw [beq_eq_false_iff_ne]
  rintro rfl
  rw [hc] at h
  exact Bool.false_ne_true h

/-- A string containing "videotoolbox" has no default CRF: none of the
exact-equality branches of `getOptimalCRF` that return a value can fire. -/
theorem getOptimalCRF_eq_none_of_videotoolbox (e : String)
    (hv : jsIncludes e "videotoolbox" = true) : getOptimalCRF e = none := by
  simp only [getOptimalCRF,
    beq_name_false e "libx264" "videotoolbox" hv (by decide),
    beq_name_false e "libx265" "videotoolbox" hv (by decide),
    beq_name_false e "libsvtav1" "videotoolbox" hv (by decide),
    beq_name_false e "h264_nvenc" "videotoolbox" hv (by decide),
    beq_name_false e "hevc_nvenc" "videotoolbox" hv (by decide),
    beq_name_false e "av1_nvenc" "videotoolbox" hv (by decide),
    beq_name_false e "h264_qsv" "videotoolbox" hv (by decide),
    beq_name_false e "hevc_qsv" "videotoolbox" hv (by decide),
    beq_name_false e "av1_qsv" "videotoolbox" hv (by decide),
    beq_name_false e "h264_amf" "videotoolbox" hv (by decide),
    beq_name_false e "hevc_amf" "videotoolbox" hv (by decide),
    beq_name_false e "av1_amf" "videotoolbox" hv (by decide),
    Bool.false_eq_true, if_false]
  split_ifs <;> rfl

/-- A string containing "videotoolbox" but not "nvenc" has no default
preset. -/
theorem getOptimalPreset_eq_none_of_videotoolbox (e : String)
    (hv : jsIncludes e "videotoolbox" = true)
    (hn : jsIncludes e "nvenc" = false) : getOptimalPreset e = none := by
  simp only [getOptimalPreset,
    beq_name_false e "libx264" "videotoolbox" hv (by decide),
    beq_name_false e "libx265" "videotoolbox" hv (by decide),
    beq_name_false e "libsvtav1" "videotoolbox" hv (by decide),
    hn, hv, Bool.false_eq_true, if_false, if_true]

/-- A string containing "nvenc" that is not one of the three exact NVENC
encoder names has no default CRF. -/
theorem getOptimalCRF_eq_none_of_nvenc_nonexact (e : String)
    (hn : jsIncludes e "nvenc" = true)
    (h264 : e ≠ "h264_nvenc") (hHevc : e ≠ "hevc_nvenc")
    (hAv1 : e ≠ "av1_nvenc") : getOptimalCRF e = none := by
  simp only [getOptimalCRF,
    beq_name_false e "libx264" "nvenc" hn (by decide),
    beq_name_false e "libx265" "nvenc" hn (by decide),
    beq_name_false e "libsvtav1" "nvenc" hn (by decide),
    beq_eq_false_iff_ne.2 h264,
    beq_eq_false_iff_ne.2 hHevc,
    beq_eq_false_iff_ne.2 hAv1,
    beq_name_false e "h264_videotoolbox" "nvenc" hn (by decide),
    beq_name_false e "hevc_videotoolbox" "nvenc" hn (by decide),
    beq_name_false e "h264_qsv" "nvenc" hn (by decide),
    beq_name_false e "hevc_qsv" "nvenc" hn (by decide),
    beq_name_false e "av1_qsv" "nvenc" hn (by decide),
    beq_name_false e "h264_amf" "nvenc" hn (by decide),
    beq_name_false e "hevc_amf" "nvenc" hn (by decide),
    beq_name_false e "av1_amf" "nvenc" hn (by decide),
    Bool.false_eq_true, if_false]
  split_ifs <;> rfl

/-- A string containing "nvenc" gets the NVENC default preset "p4". -/
theorem getOptimalPreset_nvenc (e : String)
    (hn : jsIncludes e "nvenc" = true) : getOptimalPreset e = some "p4" := by
  simp only [getOptimalPreset,
    beq_name_false e "libx264" "nvenc" hn (by decide),
    beq_name_false e "libx265" "nvenc" hn (by decide),
    beq_name_false e "libsvtav1" "nvenc" hn (by decide),
    hn, Bool.false_eq_true, if_false, if_true]

/-! ## C6 -/

/-- C6: `getEncoderQualityArgs 'libx264' 0` with no overrides is exactly
`['-crf:0', '23', '-preset:0', 'medium']` (rate-factor pair first, then
preset pair), and `getEncoderQualityArgs 'h264_nvenc' 2 18` is exactly
`['-cq:2', '18', '-preset:2', 'p4']` (quality override replaces the default
23, default preset p4 kept). -/
theorem getEncoderQualityArgs_examples :
    getEncoderQualityArgs "libx264" 0 none none
      = ["-crf:0", "23", "-preset:0", "medium"] ∧
    getEncoderQualityArgs "h264_nvenc" 2 (some 18) none
      = ["-cq:2", "18", "-preset:2", "p4"] := by
  constructor <;> decide

/-! ## C7 -/

/-- C7 counterexample: `"h264_nvenc_videotoolbox"` contains "videotoolbox",
yet with no overrides the result is not the two tokens `['-q:0', '65']`: the
`nvenc` substring test in `getOptimalPreset` fires first, so a preset pair
is also emitted. -/
theorem getEncoderQualityArgs_videotoolbox_counterexample :
    jsIncludes "h264_nvenc_videotoolbox" "videotoolbox" = true ∧
    getEncoderQualityArgs "h264_nvenc_videotoolbox" 0 none none
      = ["-preset:0", "p4", "-q:0", "65"] ∧
    getEncoderQualityArgs "h264_nvenc_videotoolbox" 0 none none
      ≠ ["-q:0", "65"] := by
  refine ⟨by decide, by decide, by decide⟩

/-- C7 amended: for every encoder identifier containing "videotoolbox" but
not containing "nvenc", and every outputIndex, `getEncoderQualityArgs` with
no overrides returns exactly the two tokens `-q:<outputIndex>`, `65`: the
quality default and the preset default are both absent, so only the fixed
quality-scale pair is emitted. -/
theorem getEncoderQualityArgs_videotoolbox_amended (encoder : String)
    (outputIndex : ℕ)
    (hv : jsIncludes encoder "videotoolbox" = true)
    (hn : jsIncludes encoder "nvenc" = false) :
    getEncoderQualityArgs encoder outputIndex none none
      = ["-q:" ++ toString outputIndex, "65"] := by
  simp only [getEncoderQualityArgs,
    getOptimalCRF_eq_none_of_videotoolbox encoder hv,
    getOptimalPreset_eq_none_of_videotoolbox encoder hv hn,
    hv, if_true, List.nil_append]

/-- C7 amended, witness at `h264_videotoolbox`, outputIndex 0. -/
theorem getEncoderQualityArgs_videotoolbox_amended_witness :
    getEncoderQualityArgs "h264_videotoolbox" 0 none none
      = ["-q:" ++ toString 0, "65"] :=
  getEncoderQualityArgs_videotoolbox_amended "h264_videotoolbox" 0
    (by decide) (by decide)

/-! ## C9 -/

/-- C9: for every encoder identifier containing none of "nvenc", "qsv",
"amf", and every numeric quality override q, `getEncoderQualityArgs` emits
the generic rate-factor pair `-crf:<outputIndex>`, `q` (followed by whatever
preset/fixed-quality tokens the other rules contribute): the override is
passed through via the generic fallback dialect. -/
theorem getEncoderQualityArgs_generic_fallback (encoder : String)
    (outputIndex : ℕ) (q : ℤ) (customPreset : Option String)
    (h1 : jsIncludes encoder "nvenc" = false)
    (h2 : jsIncludes encoder "qsv" = false)
    (h3 : jsIncludes encoder "amf" = false) :
    ∃ rest, getEncoderQualityArgs encoder outputIndex (some q) customPreset
      = ["-crf:" ++ toString outputIndex, toString q] ++ rest := by
  refine ⟨?_, ?_⟩
  · exact (match (match customPreset with
        | some p => some p
        | none => getOptimalPreset encoder) with
      | none => []
      | some p => ["-preset:" ++ toString outputIndex, p]) ++
      (if jsIncludes encoder "videotoolbox" then
        ["-q:" ++ toString outputIndex, "65"]
      else [])
  · simp only [getEncoderQualityArgs, h1, h2, h3, Bool.false_eq_true,
      if_false, List.cons_append, List.nil_append, List.append_assoc]

/-- C9, witness at `h264_videotoolbox` (fixed-quality-scale family) with
override 18, outputIndex 0. -/
theorem getEncoderQualityArgs_generic_fallback_witness :
    ∃ rest, getEncoderQualityArgs "h264_videotoolbox" 0 (some 18) none
      = ["-crf:" ++ toString 0, toString (18 : ℤ)] ++ rest :=
  getEncoderQualityArgs_generic_fallback "h264_videotoolbox" 0 18 none
    (by decide) (by decide) (by decide)

/-! ## C10 -/

/-- C10 counterexample: `"nvenc_videotoolbox"` contains "nvenc" and is not
one of the three exact NVENC names, yet `getEncoderQualityArgs` with no
overrides does not emit only the preset pair: the VideoToolbox fixed
quality-scale pair `-q:0`, `65` is also emitted. -/
theorem getEncoderQualityArgs_nvenc_nonexact_counterexample :
    jsIncludes "nvenc_videotoolbox" "nvenc" = true ∧
    ("nvenc_videotoolbox" ≠ "h264_nvenc" ∧ "nvenc_videotoolbox" ≠ "hevc_nvenc" ∧
      "nvenc_videotoolbox" ≠ "av1_nvenc") ∧
    supportsCRF "nvenc_videotoolbox" = false ∧
    getEncoderQualityArgs "nvenc_videotoolbox" 0 none none
      = ["-preset:0", "p4", "-q:0", "65"] ∧
    getEncoderQualityArgs "nvenc_videotoolbox" 0 none none
      ≠ ["-preset:0", "p4"] := by
  refine ⟨by decide, ⟨by decide, by decide, by decide⟩, by decide, by decide,
    by decide⟩

/-- C10 amended: for every identifier containing "nvenc" that is not exactly
one of the three NVENC encoder names and does not contain "videotoolbox",
`supportsCRF` is false and `getEncoderQualityArgs` with no overrides emits
only the preset pair `-preset:<outputIndex>`, `p4` and no quality
argument. (`getOptimalCRF` matches those families only by exact equality
while `getOptimalPreset` matches "nvenc" by substring.) -/
theorem getEncoderQualityArgs_nvenc_nonexact_amended (encoder : String)
    (outputIndex : ℕ)
    (hn : jsIncludes encoder "nvenc" = true)
    (h264 : encoder ≠ "h264_nvenc") (hHevc : encoder ≠ "hevc_nvenc")
    (hAv1 : encoder ≠ "av1_nvenc")
    (hv : jsIncludes encoder "videotoolbox" = false) :
    supportsCRF encoder = false ∧
    getEncoderQualityArgs encoder outputIndex none none
      = ["-preset:" ++ toString outputIndex, "p4"] := by
  constructor
  · simp only [supportsCRF,
      getOptimalCRF_eq_none_of_nvenc_nonexact encoder hn h264 hHevc hAv1,
      Option.isSome_none]
  · simp only [getEncoderQualityArgs,
      getOptimalCRF_eq_none_of_nvenc_nonexact encoder hn h264 hHevc hAv1,
      getOptimalPreset_nvenc encoder hn,
      hv, Bool.false_eq_true, if_false, List.nil_append, List.append_nil]

/-- C10 amended, witness at `av1_nvenc_extra`, outputIndex 1. -/
theorem getEncoderQualityArgs_nvenc_nonexact_amended_witness :
    supportsCRF "av1_nvenc_extra" = false ∧
    getEncoderQualityArgs "av1_nvenc_extra" 1 none none
      = ["-preset:" ++ toString 1, "p4"] :=
  getEncoderQualityArgs_nvenc_nonexact_amended "av1_nvenc_extra" 1
    (by decide) (by decide) (by decide) (by decide) (by decide)

/-! ## Keyframe helper soundness (for the spec-modelled helpers) -/

/-- The spec-modelled `findKeyframeAtExactTime` returns only a keyframe
whose time equals the requested time. -/
theorem findKeyframeAtExactTime_sound (kfs : List Keyframe) (t : ℚ)
    (kf : Keyframe) (h : findKeyframeAtExactTime kfs t = some kf) :
    kf.time = t := by
  have := List.find?_some h
  simpa using this

/-- The spec-modelled `findNextKeyframe` returns only a keyframe whose time
is at or after the requested time. -/
theorem findNextKeyframe_sound (kfs : List Keyframe) (t : ℚ)
    (kf : Keyframe) (h : findNextKeyframe kfs t = some kf) :
    t ≤ kf.time := by
  have := List.find?_some h
  simpa using this

/-! ## C1 -/

/-- C1: whenever `needsSmartCut` returns a `CutDecision` (does not throw),
under the hypothesis that the external keyframe helpers behave as specified
(`fkat` returns only a keyframe whose time equals the desired time, `fnk`
returns only a keyframe whose time is ≥ the desired time): if
`segmentNeedsSmartCut` is false then `losslessCutFrom` equals
`desiredCutFrom` exactly, and if it is true then `losslessCutFrom` ≥
`desiredCutFrom`. -/
theorem needsSmartCut_cutFrom_correct
    (fkat fnk : List Keyframe → ℚ → Option Keyframe)
    (hExact : ∀ kfs t kf, fkat kfs t = some kf → kf.time = t)
    (hNext : ∀ kfs t kf, fnk kfs t = some kf → t ≤ kf.time)
    (readKeyframes : ℕ → List Keyframe) (desiredCutFrom : ℚ)
    (d : CutDecision)
    (h : needsSmartCut fkat fnk readKeyframes desiredCutFrom = Except.ok d) :
    (d.segmentNeedsSmartCut = false → d.losslessCutFrom = desiredCutFrom) ∧
    (d.segmentNeedsSmartCut = true → desiredCutFrom ≤ d.losslessCutFrom) := by
  cases hk : fkat (readKeyframes 10) desiredCutFrom with
  | some kf =>
    simp only [needsSmartCut, hk, Except.ok.injEq] at h
    subst h
    exact ⟨fun _ => hExact _ _ _ hk, fun hb => by simp at hb⟩
  | none =>
    cases hn : fnk (readKeyframes 10) desiredCutFrom with
    | some kf =>
      simp only [needsSmartCut, hk, hn, Except.ok.injEq] at h
      subst h
      exact ⟨fun hb => by simp at hb, fun _ => hNext _ _ _ hn⟩
    | none =>
      cases h60 : fnk (readKeyframes 60) desiredCutFrom with
      | some kf =>
        simp only [needsSmartCut, hk, hn, h60, Except.ok.injEq] at h
        subst h
        exact ⟨fun hb => by simp at hb, fun _ => hNext _ _ _ h60⟩
      | none =>
        simp only [needsSmartCut, hk, hn, h60] at h
        exact absurd h (by simp)

/-- C1 witness: a keyframe source answering a single keyframe at time 5,
desired time 5; the decision is lossless at time 5. -/
theorem needsSmartCut_cutFrom_correct_witness :
    ((CutDecision.mk 5 false).segmentNeedsSmartCut = false →
      (CutDecision.mk 5 false).losslessCutFrom = 5) ∧
    ((CutDecision.mk 5 false).segmentNeedsSmartCut = true →
      (5 : ℚ) ≤ (CutDecision.mk 5 false).losslessCutFrom) :=
  needsSmartCut_cutFrom_correct findKeyframeAtExactTime findNextKeyframe
    findKeyframeAtExactTime_sound findNextKeyframe_sound
    (fun _ => [⟨5⟩]) 5 ⟨5, false⟩ rfl

/-- The spec-modelled `findKeyframeAtExactTime` finds nothing exactly when
no keyframe of the list sits at the requested time. -/
theorem findKeyframeAtExactTime_eq_none_iff (l : List Keyframe) (t : ℚ) :
    findKeyframeAtExactTime l t = none ↔ ∀ kf ∈ l, kf.time ≠ t := by
  simp [findKeyframeAtExactTime, List.find?_eq_none]

/-- The spec-modelled `findNextKeyframe` finds nothing exactly when no
keyframe of the list sits at or after the requested time. -/
theorem findNextKeyframe_eq_none_iff (l : List Keyframe) (t : ℚ) :
    findNextKeyframe l t = none ↔ ∀ kf ∈ l, ¬ t ≤ kf.time := by
  simp [findNextKeyframe, List.find?_eq_none]

/-! ## C2 -/

/-- C2: `needsSmartCut` (over the spec-modelled keyframe helpers) first
queries with window 10; it queries exactly once more, with window 60, if
and only if the first window's result contains no keyframe at the desired
time and none at or after it; there is no further retry; it fails exactly
when the retry happened and the widened window still contains no keyframe
at or after the desired time, and every failure carries the user-facing,
recoverable error kind. -/
theorem needsSmartCut_retry_policy (rk : ℕ → List Keyframe) (t : ℚ) :
    (needsSmartCutWindows findKeyframeAtExactTime findNextKeyframe rk t).head?
      = some 10 ∧
    (needsSmartCutWindows findKeyframeAtExactTime findNextKeyframe rk t = [10] ∨
      needsSmartCutWindows findKeyframeAtExactTime findNextKeyframe rk t = [10, 60]) ∧
    (needsSmartCutWindows findKeyframeAtExactTime findNextKeyframe rk t = [10, 60] ↔
      (∀ kf ∈ rk 10, kf.time ≠ t) ∧ (∀ kf ∈ rk 10, ¬ t ≤ kf.time)) ∧
    ((∃ msg, needsSmartCut findKeyframeAtExactTime findNextKeyframe rk t
        = Except.error (SmartCutError.userFacing msg)) ↔
      (needsSmartCutWindows findKeyframeAtExactTime findNextKeyframe rk t = [10, 60] ∧
        ∀ kf ∈ rk 60, ¬ t ≤ kf.time)) ∧
    (∀ e, needsSmartCut findKeyframeAtExactTime findNextKeyframe rk t
        = Except.error e →
      e = SmartCutError.userFacing
        "Cannot find any keyframe after the desired start cut point") := by
  cases hk : findKeyframeAtExactTime (rk 10) t with
  | some kf =>
    have hmem : kf ∈ rk 10 := List.mem_of_find?_eq_some hk
    have htime : kf.time = t := findKeyframeAtExactTime_sound _ _ _ hk
    simp only [needsSmartCutWindows, needsSmartCut, hk]
    refine ⟨by simp, Or.inl (by simp), ?_, ?_, ?_⟩
    · constructor
      · intro hcontra; exact absurd hcontra (by simp)
      · rintro ⟨h1, _⟩; exact absurd htime (h1 kf hmem)
    · constructor
      · rintro ⟨msg, hmsg⟩; exact absurd hmsg (by simp)
      · rintro ⟨hcontra, _⟩; exact absurd hcontra (by simp)
    · intro e he; exact absurd he (by simp)
  | none =>
    have hkiff := (findKeyframeAtExactTime_eq_none_iff (rk 10) t).1 hk
    cases hn : findNextKeyframe (rk 10) t with
    | some kf =>
      have hmem : kf ∈ rk 10 := List.mem_of_find?_eq_some hn
      have htime : t ≤ kf.time := findNextKeyframe_sound _ _ _ hn
      simp only [needsSmartCutWindows, needsSmartCut, hk, hn]
      refine ⟨by simp, Or.inl (by simp), ?_, ?_, ?_⟩
      · constructor
        · intro hcontra; exact absurd hcontra (by simp)
        · rintro ⟨_, h2⟩; exact absurd htime (h2 kf hmem)
      · constructor
        · rintro ⟨msg, hmsg⟩; exact absurd hmsg (by simp)
        · rintro ⟨hcontra, _⟩; exact absurd hcontra (by simp)
      · intro e he; exact absurd he (by simp)
    | none =>
      have hniff := (findNextKeyframe_eq_none_iff (rk 10) t).1 hn
      cases h60 : findNextKeyframe (rk 60) t with
      | some kf =>
        have hmem : kf ∈ rk 60 := List.mem_of_find?_eq_some h60
        have htime : t ≤ kf.time := findNextKeyframe_sound _ _ _ h60
        simp only [needsSmartCutWindows, needsSmartCut, hk, hn, h60]
        refine ⟨by simp, Or.inr (by simp), iff_of_true (by simp) ⟨hkiff, hniff⟩, ?_, ?_⟩
        · constructor
          · rintro ⟨msg, hmsg⟩; exact absurd hmsg (by simp)
          · rintro ⟨_, h2⟩; exact absurd htime (h2 kf hmem)
        · intro e he; exact absurd he (by simp)
      | none =>
        have h60iff := (findNextKeyframe_eq_none_iff (rk 60) t).1 h60
        simp only [needsSmartCutWindows, needsSmartCut, hk, hn, h60]
        refine ⟨by simp, Or.inr (by simp), iff_of_true (by simp) ⟨hkiff, hniff⟩,
          iff_of_true (by simp) ⟨by simp, h60iff⟩, ?_⟩
        intro e he
        simp only [Except.error.injEq] at he
        exact he.symm

/-! ## Arithmetic helpers for the bitrate derivation -/

/-- `Rat.floor` of an integer is that integer (the second `Math.floor` on an
already-floored value changes nothing). -/
theorem Rat_floor_intCast (z : ℤ) : Rat.floor ((z : ℚ)) = z := by
  rw [Rat.floor_def']
  simp

/-- `Rat.floor` preserves nonnegativity. -/
theorem Rat_floor_nonneg {q : ℚ} (h : 0 ≤ q) : 0 ≤ Rat.floor q :=
  Rat.le_floor.2 (by exact_mod_cast h)

/-- Success inversion for `getCodecParams`: a returned `CodecParams` record
comes from the unique real video stream, carries its mapped codec and
timebase, and its bitrate is the double floor of the chosen raw bitrate
(parsed, or estimated from file size over duration) times 12/10. -/
theorem getCodecParams_ok_elim (statSize : ℕ) (fd : Option ℚ)
    (streams : List FFprobeStream) (cp : CodecParams)
    (h : getCodecParams statSize fd streams = Except.ok cp) :
    ∃ s c, getRealVideoStreams streams = [s] ∧ s.codec_name = some c ∧
      cp.videoStream = s ∧ cp.videoCodec = mapVideoCodec c ∧
      cp.videoTimebase = getVideoTimebase s ∧
      ∃ raw : ℚ,
        ((∃ n, parseIntJS s.bit_rate = some n ∧ raw = (n : ℚ)) ∨
          (parseIntJS s.bit_rate = none ∧
            ∃ dur, fd = some dur ∧ raw = (statSize : ℚ) * 8 / dur)) ∧
        cp.videoBitrate = Rat.floor ((Rat.floor (raw * (12 / 10)) : ℤ) : ℚ) := by
  cases hvs : getRealVideoStreams streams with
  | nil => simp [getCodecParams, hvs] at h
  | cons a tail =>
    cases tail with
    | cons b t =>
      have hlen : 1 < (getRealVideoStreams streams).length := by
        rw [hvs]; simp
      simp [getCodecParams, if_pos hlen] at h
    | nil =>
      cases hbr : parseIntJS a.bit_rate with
      | some n =>
        cases hcn : a.codec_name with
        | none => simp [getCodecParams, hvs, hbr, hcn] at h
        | some c =>
          simp [getCodecParams, hvs, hbr, hcn] at h
          refine ⟨a, c, rfl, hcn, ?_, ?_, ?_, (n : ℚ), Or.inl ⟨n, hbr, rfl⟩, ?_⟩ <;>
            simp [← h]
      | none =>
        cases fd with
        | none => simp [getCodecParams, hvs, hbr] at h
        | some dur =>
          cases hcn : a.codec_name with
          | none => simp [getCodecParams, hvs, hbr, hcn] at h
          | some c =>
            simp [getCodecParams, hvs, hbr, hcn] at h
            refine ⟨a, c, rfl, hcn, ?_, ?_, ?_,
              (statSize : ℚ) * 8 / dur, Or.inr ⟨hbr, dur, rfl, rfl⟩, ?_⟩ <;>
              simp [← h]

/-! ## C3 -/

/-- C3: with exactly one real video stream whose bit rate is unparseable,
`fileDuration = 100` s and a stat size of 12,500,000 bytes, the raw
estimated bitrate is 12,500,000·8/100 = 1,000,000 bits/s and the returned
`videoBitrate` is `Rat.floor (1,000,000 · 12/10)` = 1,200,000. -/
theorem getCodecParams_estimate_100s (streams : List FFprobeStream)
    (s : FFprobeStream) (cp : CodecParams)
    (hs : getRealVideoStreams streams = [s])
    (hbr : parseIntJS s.bit_rate = none)
    (h : getCodecParams 12500000 (some 100) streams = Except.ok cp) :
    (12500000 : ℚ) * 8 / 100 = 1000000 ∧
    cp.videoBitrate = Rat.floor ((1000000 : ℚ) * (12 / 10)) ∧
    cp.videoBitrate = 1200000 := by
  obtain ⟨s', c, hs', hcn, _, _, _, raw, hraw, hbit⟩ :=
    getCodecParams_ok_elim _ _ _ _ h
  have hss : s' = s := by
    have := hs'.symm.trans hs
    simpa using this
  subst hss
  rcases hraw with ⟨n, hn, _⟩ | ⟨_, dur, hdur, hrawe⟩
  · rw [hbr] at hn
    cases hn
  · have hdur' : dur = 100 := by
      simpa using hdur.symm
    subst hdur'
    have hraw1000000 : raw = 1000000 := by rw [hrawe]; norm_num
    have hfloor : Rat.floor ((1000000 : ℚ) * (12 / 10)) = 1200000 := by
      norm_num [Rat.floor_def']
    have hbit' : cp.videoBitrate = 1200000 := by
      rw [hbit, hraw1000000, hfloor, Rat_floor_intCast]
    exact ⟨by norm_num, by rw [hbit', hfloor], hbit'⟩

/-- The single real video stream used by the C3 witness: unparseable
bit rate. -/
def streamEstimate : FFprobeStream :=
  { index := 0, codec_type := "video", disposition := ⟨false⟩,
    bit_rate := some "N/A", codec_name := some "h264", time_base := none }

/-- Evaluation of `getCodecParams` on the C3 witness inputs. -/
theorem getCodecParams_streamEstimate_eval :
    getCodecParams 12500000 (some 100) [streamEstimate]
      = Except.ok ⟨streamEstimate, .str "h264", 1200000, none⟩ := by
  have h1 : getRealVideoStreams [streamEstimate] = [streamEstimate] := by decide
  have h2 : parseIntJS streamEstimate.bit_rate = none := by decide
  have h3 : streamEstimate.codec_name = some "h264" := rfl
  have h4 : getVideoTimebase streamEstimate = none := rfl
  have h5 : mapVideoCodec "h264" = .str "h264" := by decide
  simp only [getCodecParams, h1, h2, h3, h4, h5, List.length_cons,
    List.length_nil, List.head?, gt_iff_lt, Nat.lt_irrefl, if_false,
    Nat.zero_add, Except.ok.injEq, CodecParams.mk.injEq]
  refine ⟨by trivial, by trivial, ?_, by trivial⟩
  have hfloor : Rat.floor ((12500000 : ℚ) * 8 / 100 * (12 / 10)) = 1200000 := by
    norm_num [Rat.floor_def']
  push_cast
  rw [hfloor, Rat_floor_intCast]

/-- C3 witness. -/
theorem getCodecParams_estimate_100s_witness :
    (12500000 : ℚ) * 8 / 100 = 1000000 ∧
    (CodecParams.mk streamEstimate (.str "h264") 1200000 none).videoBitrate
      = Rat.floor ((1000000 : ℚ) * (12 / 10)) ∧
    (CodecParams.mk streamEstimate (.str "h264") 1200000 none).videoBitrate
      = 1200000 :=
  getCodecParams_estimate_100s [streamEstimate] streamEstimate
    ⟨streamEstimate, .str "h264", 1200000, none⟩ (by decide) (by decide)
    getCodecParams_streamEstimate_eval

/-! ## C4 -/

/-- C4: `getCodecParams` fails, always with the plain internal error kind,
in exactly these cases: the stream classifier selects zero real video
streams, it selects more than one, the selected stream's codec identifier
is absent, or the bit rate is unparseable while `fileDuration` is also
absent. -/
theorem getCodecParams_internal_error_iff (statSize : ℕ) (fd : Option ℚ)
    (streams : List FFprobeStream) :
    ((∃ msg, getCodecParams statSize fd streams
        = Except.error (SmartCutError.internal msg)) ↔
      ((getRealVideoStreams streams).length = 0 ∨
        1 < (getRealVideoStreams streams).length ∨
        (∃ s, getRealVideoStreams streams = [s] ∧
          (s.codec_name = none ∨
            (parseIntJS s.bit_rate = none ∧ fd = none))))) ∧
    (∀ e, getCodecParams statSize fd streams = Except.error e →
      ∃ msg, e = SmartCutError.internal msg) := by
  cases hvs : getRealVideoStreams streams with
  | nil =>
    have hres : getCodecParams statSize fd streams
        = Except.error (.internal "Smart cut only works on videos") := by
      simp [getCodecParams, hvs]
    rw [hres]
    constructor
    · exact iff_of_true ⟨_, rfl⟩ (Or.inl rfl)
    · intro e he
      simp only [Except.error.injEq] at he
      exact ⟨_, he.symm⟩
  | cons a tail =>
    cases tail with
    | cons b t =>
      have hlen : 1 < (getRealVideoStreams streams).length := by
        rw [hvs]; simp
      have hres : getCodecParams statSize fd streams
          = Except.error
              (.internal "Can only smart cut video with exactly one video stream") := by
        simp [getCodecParams, hlen]
      rw [hres]
      constructor
      · exact iff_of_true ⟨_, rfl⟩ (Or.inr (Or.inl (by simp)))
      · intro e he
        simp only [Except.error.injEq] at he
        exact ⟨_, he.symm⟩
    | nil =>
      cases hbr : parseIntJS a.bit_rate with
      | some n =>
        cases hcn : a.codec_name with
        | none =>
          have hres : getCodecParams statSize fd streams
              = Except.error (.internal "Unable to determine codec for smart cut") := by
            simp [getCodecParams, hvs, hbr, hcn]
          rw [hres]
          constructor
          · exact iff_of_true ⟨_, rfl⟩ (Or.inr (Or.inr ⟨a, rfl, Or.inl hcn⟩))
          · intro e he
            simp only [Except.error.injEq] at he
            exact ⟨_, he.symm⟩
        | some c =>
          have hres : getCodecParams statSize fd streams
              = Except.ok ⟨a, mapVideoCodec c,
                  Rat.floor ((Rat.floor ((n : ℚ) * (12 / 10)) : ℤ) : ℚ),
                  getVideoTimebase a⟩ := by
            simp [getCodecParams, hvs, hbr, hcn]
          rw [hres]
          constructor
          · apply iff_of_false
            · rintro ⟨msg, hmsg⟩
              exact absurd hmsg (by simp)
            · rintro (h0 | h1 | ⟨s', hs', hcase⟩)
              · simp at h0
              · simp at h1
              · have : a = s' := by simpa using hs'
                subst this
                rcases hcase with hc | ⟨hbn, _⟩
                · rw [hcn] at hc; cases hc
                · rw [hbr] at hbn; cases hbn
          · intro e he
            exact absurd he (by simp)
      | none =>
        cases fd with
        | none =>
          have hres : getCodecParams statSize none streams
              = Except.error
                  (.internal "Video duration is unknown, cannot estimate bitrate") := by
            simp [getCodecParams, hvs, hbr]
          rw [hres]
          constructor
          · exact iff_of_true ⟨_, rfl⟩
              (Or.inr (Or.inr ⟨a, rfl, Or.inr ⟨hbr, rfl⟩⟩))
          · intro e he
            simp only [Except.error.injEq] at he
            exact ⟨_, he.symm⟩
        | some dur =>
          cases hcn : a.codec_name with
          | none =>
            have hres : getCodecParams statSize (some dur) streams
                = Except.error (.internal "Unable to determine codec for smart cut") := by
              simp [getCodecParams, hvs, hbr, hcn]
            rw [hres]
            constructor
            · exact iff_of_true ⟨_, rfl⟩ (Or.inr (Or.inr ⟨a, rfl, Or.inl hcn⟩))
            · intro e he
              simp only [Except.error.injEq] at he
              exact ⟨_, he.symm⟩
          | some c =>
            have hres : getCodecParams statSize (some dur) streams
                = Except.ok ⟨a, mapVideoCodec c,
                    Rat.floor ((Rat.floor
                      ((statSize : ℚ) * 8 / dur * (12 / 10)) : ℤ) : ℚ),
                    getVideoTimebase a⟩ := by
              simp [getCodecParams, hvs, hbr, hcn]
            rw [hres]
            constructor
            · apply iff_of_false
              · rintro ⟨msg, hmsg⟩
                exact absurd hmsg (by simp)
              · rintro (h0 | h1 | ⟨s', hs', hcase⟩)
                · simp at h0
                · simp at h1
                · have : a = s' := by simpa using hs'
                  subst this
                  rcases hcase with hc | ⟨_, hfd⟩
                  · rw [hcn] at hc; cases hc
                  · cases hfd
            · intro e he
              exact absurd he (by simp)

/-! ## C5 -/

/-- The single real video stream used by the C5 counterexample: bit rate
string parsing to the negative integer -5. -/
def streamNegBitrate : FFprobeStream :=
  { index := 0, codec_type := "video", disposition := ⟨false⟩,
    bit_rate := some "-5", codec_name := some "h264", time_base := none }

/-- C5 counterexample: a successful call on a stream whose reported bit
rate parses to -5 returns `videoBitrate = Rat.floor (-5 · 12/10) = -6`,
which is negative. -/
theorem getCodecParams_negative_counterexample :
    parseIntJS streamNegBitrate.bit_rate = some (-5) ∧
    getCodecParams 0 (some 100) [streamNegBitrate]
      = Except.ok ⟨streamNegBitrate, .str "h264", -6, none⟩ ∧
    (CodecParams.mk streamNegBitrate (.str "h264") (-6) none).videoBitrate < 0 := by
  refine ⟨by decide, ?_, by decide⟩
  have h1 : getRealVideoStreams [streamNegBitrate] = [streamNegBitrate] := by
    decide
  have h2 : parseIntJS streamNegBitrate.bit_rate = some (-5) := by decide
  have h3 : streamNegBitrate.codec_name = some "h264" := rfl
  have h4 : getVideoTimebase streamNegBitrate = none := rfl
  have h5 : mapVideoCodec "h264" = .str "h264" := by decide
  simp only [getCodecParams, h1, h2, h3, h4, h5, List.length_cons,
    List.length_nil, List.head?, gt_iff_lt, Nat.lt_irrefl, if_false,
    Nat.zero_add, Except.ok.injEq, CodecParams.mk.injEq]
  refine ⟨by trivial, by trivial, ?_, by trivial⟩
  have hfloor : Rat.floor (((-5 : ℤ) : ℚ) * (12 / 10)) = -6 := by
    norm_num [Rat.floor_def']
  rw [hfloor, Rat_floor_intCast]

/-- C5 amended: a successful `getCodecParams` returns a nonnegative
`videoBitrate` (an integer by construction, never NaN) provided the
reported bit rate does not parse to a negative integer and, when the
estimation path is taken, the duration is positive. The unamended claim
fails on negative parsed bit rates (see the counterexample): the code
never clamps. -/
theorem getCodecParams_bitrate_nonneg_amended (statSize : ℕ) (fd : Option ℚ)
    (streams : List FFprobeStream) (cp : CodecParams)
    (h : getCodecParams statSize fd streams = Except.ok cp)
    (hbr : ∀ n, parseIntJS cp.videoStream.bit_rate = some n → 0 ≤ n)
    (hfd : parseIntJS cp.videoStream.bit_rate = none →
      ∀ dur, fd = some dur → 0 < dur) :
    0 ≤ cp.videoBitrate := by
  obtain ⟨s, c, hs, hcn, hvs, _, _, raw, hraw, hbit⟩ :=
    getCodecParams_ok_elim _ _ _ _ h
  have hraw0 : 0 ≤ raw := by
    rcases hraw with ⟨n, hn, hr⟩ | ⟨hnone, dur, hdur, hr⟩
    · have hn0 : 0 ≤ n := hbr n (by rw [hvs]; exact hn)
      rw [hr]
      exact_mod_cast hn0
    · have hd0 : 0 < dur := hfd (by rw [hvs]; exact hnone) dur hdur
      rw [hr]
      apply div_nonneg
      · positivity
      · exact le_of_lt hd0
  rw [hbit]
  have h1 : (0 : ℤ) ≤ Rat.floor (raw * (12 / 10)) :=
    Rat_floor_nonneg (mul_nonneg hraw0 (by norm_num))
  exact Rat_floor_nonneg (by exact_mod_cast h1)

/-- The single real video stream used by the C5 and C8 witnesses (C5 uses a
parseable nonnegative bit rate). -/
def streamParsedBitrate : FFprobeStream :=
  { index := 0, codec_type := "video", disposition := ⟨false⟩,
    bit_rate := some "1000", codec_name := some "h264", time_base := none }

/-- Evaluation of `getCodecParams` on the C5 witness inputs. -/
theorem getCodecParams_streamParsedBitrate_eval :
    getCodecParams 0 none [streamParsedBitrate]
      = Except.ok ⟨streamParsedBitrate, .str "h264", 1200, none⟩ := by
  have h1 : getRealVideoStreams [streamParsedBitrate] = [streamParsedBitrate] := by
    decide
  have h2 : parseIntJS streamParsedBitrate.bit_rate = some 1000 := by decide
  have h3 : streamParsedBitrate.codec_name = some "h264" := rfl
  have h4 : getVideoTimebase streamParsedBitrate = none := rfl
  have h5 : mapVideoCodec "h264" = .str "h264" := by decide
  simp only [getCodecParams, h1, h2, h3, h4, h5, List.length_cons,
    List.length_nil, List.head?, gt_iff_lt, Nat.lt_irrefl, if_false,
    Nat.zero_add, Except.ok.injEq, CodecParams.mk.injEq]
  refine ⟨by trivial, by trivial, ?_, by trivial⟩
  have hfloor : Rat.floor (((1000 : ℤ) : ℚ) * (12 / 10)) = 1200 := by
    norm_num [Rat.floor_def']
  rw [hfloor, Rat_floor_intCast]

/-- C5 amended, witness. -/
theorem getCodecParams_bitrate_nonneg_amended_witness :
    (0 : ℤ) ≤ (CodecParams.mk streamParsedBitrate (.str "h264") 1200 none).videoBitrate :=
  getCodecParams_bitrate_nonneg_amended 0 none [streamParsedBitrate]
    ⟨streamParsedBitrate, .str "h264", 1200, none⟩
    getCodecParams_streamParsedBitrate_eval
    (by
      intro n hn
      have h1000 : parseIntJS
          (CodecParams.mk streamParsedBitrate (.str "h264") 1200 none).videoStream.bit_rate
          = some 1000 := by decide
      rw [h1000] at hn
      injection hn with hn'
      omega)
    (by
      intro hnone
      have h1000 : parseIntJS
          (CodecParams.mk streamParsedBitrate (.str "h264") 1200 none).videoStream.bit_rate
          = some 1000 := by decide
      rw [h1000] at hnone
      cases hnone)

/-! ## C8 -/

/-- The single real video stream used by the C8 counterexample: its probed
codec identifier "toString" names an `Object.prototype` member. -/
def streamToString : FFprobeStream :=
  { index := 0, codec_type := "video", disposition := ⟨false⟩,
    bit_rate := some "1000", codec_name := some "toString", time_base := none }

/-- C8 counterexample: the probed codec identifier "toString" is not "av1",
yet a successful `getCodecParams` call does not return it unchanged: the
object-literal lookup `({av1:'libsvtav1'})["toString"]` finds the inherited
`Object.prototype` member, which is not nullish, so the `?? codec` fallback
does not fire and the returned `videoCodec` is that member. -/
theorem getCodecParams_codec_mapping_counterexample :
    mapVideoCodec "toString" = VideoCodecValue.protoMember "toString" ∧
    mapVideoCodec "toString" ≠ VideoCodecValue.str "toString" ∧
    getCodecParams 0 none [streamToString]
      = Except.ok ⟨streamToString, .protoMember "toString", 1200, none⟩ ∧
    (CodecParams.mk streamToString (.protoMember "toString") 1200 none).videoCodec
      ≠ VideoCodecValue.str "toString" := by
  refine ⟨by decide, by decide, ?_, by decide⟩
  have h1 : getRealVideoStreams [streamToString] = [streamToString] := by
    decide
  have h2 : parseIntJS streamToString.bit_rate = some 1000 := by decide
  have h3 : streamToString.codec_name = some "toString" := rfl
  have h4 : getVideoTimebase streamToString = none := rfl
  have h5 : mapVideoCodec "toString" = .protoMember "toString" := by decide
  simp only [getCodecParams, h1, h2, h3, h4, h5, List.length_cons,
    List.length_nil, List.head?, gt_iff_lt, Nat.lt_irrefl, if_false,
    Nat.zero_add, Except.ok.injEq, CodecParams.mk.injEq]
  refine ⟨by trivial, by trivial, ?_, by trivial⟩
  have hfloor : Rat.floor (((1000 : ℤ) : ℚ) * (12 / 10)) = 1200 := by
    norm_num [Rat.floor_def']
  rw [hfloor, Rat_floor_intCast]

/-- C8 amended: every successful `getCodecParams` returns `videoCodec` equal
to `mapVideoCodec` of the probed identifier, where the lookup yields the
string "libsvtav1" for "av1", the probed identifier unchanged for every
other identifier that does not name an `Object.prototype` member, and the
inherited member for identifiers that do (the `??` fallback does not fire
on them). -/
theorem getCodecParams_codec_mapping_amended (statSize : ℕ) (fd : Option ℚ)
    (streams : List FFprobeStream) (cp : CodecParams)
    (h : getCodecParams statSize fd streams = Except.ok cp) :
    (∃ c, cp.videoStream.codec_name = some c ∧
      cp.videoCodec = mapVideoCodec c) ∧
    mapVideoCodec "av1" = VideoCodecValue.str "libsvtav1" ∧
    (∀ c, c ≠ "av1" → objectPrototypeKeys.contains c = false →
      mapVideoCodec c = VideoCodecValue.str c) ∧
    (∀ c, c ≠ "av1" → objectPrototypeKeys.contains c = true →
      mapVideoCodec c = VideoCodecValue.protoMember c) := by
  obtain ⟨s, c, hs, hcn, hvs, hvc, _, _, _, _⟩ :=
    getCodecParams_ok_elim _ _ _ _ h
  refine ⟨⟨c, by rw [hvs]; exact hcn, hvc⟩, by decide, ?_, ?_⟩
  · intro c' hne hmem
    have hmem' : c' ∉ objectPrototypeKeys := by simpa using hmem
    simp [mapVideoCodec, beq_eq_false_iff_ne.2 hne, hmem']
  · intro c' hne hmem
    have hmem' : c' ∈ objectPrototypeKeys := by simpa using hmem
    simp [mapVideoCodec, beq_eq_false_iff_ne.2 hne, hmem']

/-- The single real video stream used by the C8 witness: probed codec
"av1". -/
def streamAv1 : FFprobeStream :=
  { index := 0, codec_type := "video", disposition := ⟨false⟩,
    bit_rate := some "1000", codec_name := some "av1", time_base := none }

/-- Evaluation of `getCodecParams` on the C8 witness inputs: the probed
codec "av1" is substituted by the string "libsvtav1". -/
theorem getCodecParams_streamAv1_eval :
    getCodecParams 0 none [streamAv1]
      = Except.ok ⟨streamAv1, .str "libsvtav1", 1200, none⟩ := by
  have h1 : getRealVideoStreams [streamAv1] = [streamAv1] := by decide
  have h2 : parseIntJS streamAv1.bit_rate = some 1000 := by decide
  have h3 : streamAv1.codec_name = some "av1" := rfl
  have h4 : getVideoTimebase streamAv1 = none := rfl
  have h5 : mapVideoCodec "av1" = .str "libsvtav1" := by decide
  simp only [getCodecParams, h1, h2, h3, h4, h5, List.length_cons,
    List.length_nil, List.head?, gt_iff_lt, Nat.lt_irrefl, if_false,
    Nat.zero_add, Except.ok.injEq, CodecParams.mk.injEq]
  refine ⟨by trivial, by trivial, ?_, by trivial⟩
  have hfloor : Rat.floor (((1000 : ℤ) : ℚ) * (12 / 10)) = 1200 := by
    norm_num [Rat.floor_def']
  rw [hfloor, Rat_floor_intCast]

/-- C8 amended, witness. -/
theorem getCodecParams_codec_mapping_amended_witness :
    (∃ c, (CodecParams.mk streamAv1 (.str "libsvtav1") 1200 none).videoStream.codec_name
        = some c ∧
      (CodecParams.mk streamAv1 (.str "libsvtav1") 1200 none).videoCodec
        = mapVideoCodec c) ∧
    mapVideoCodec "av1" = VideoCodecValue.str "libsvtav1" ∧
    (∀ c, c ≠ "av1" → objectPrototypeKeys.contains c = false →
      mapVideoCodec c = VideoCodecValue.str c) ∧
    (∀ c, c ≠ "av1" → objectPrototypeKeys.contains c = true →
      mapVideoCodec c = VideoCodecValue.protoMember c) :=
  getCodecParams_codec_mapping_amended 0 none [streamAv1]
    ⟨streamAv1, .str "libsvtav1", 1200, none⟩ getCodecParams_streamAv1_eval
